import Mathlib

/-!
Verification of the query/filter and retrieval layer of the audit repository.

The definitions below are a shallow embedding of the Python source:
  * `src/MCP/audit/audit_operations_store.py` — date-range normalization
    (`_normalize_start_iso`, `_normalize_end_exclusive_iso`), the dynamic
    WHERE-clause builder of `query_invoices`, the point lookups
    (`get_invoice` etc.), `get_payments_for_invoice`, and the lazily
    initialized client (`_ensure_client`).
  * `src/MCP/audit/app.py` — the MCP tool boundary that converts every
    store error into an empty result.
  * `src/data_generator/search_index.py` — the hybrid search engine with
    its server-side/app-side vectorization strategy.

Python strings are modelled as Lean `String` (lists of characters);
Python `str.replace` and substring tests are re-implemented below so every
definition is executable and kernel-reducible.  Python `float` amounts are
carried as `ℚ`: the builder only tests them against `None` and passes the
value through unchanged, so any exact numeric carrier is faithful for the
values exercised here (integral literals).
-/

deriving instance DecidableEq for Except

/-- Error kinds raised by the Python layer: `ValueError` is what
`datetime.fromisoformat` raises on malformed input (the spec calls this
`ValidationError`), `OverflowError` is what `datetime.__add__` raises when
`timedelta(days=1)` leaves the supported year range (year ≤ 9999). -/
inductive PyError where
  | valueError (input : String)
  | overflowError
deriving DecidableEq

/-- Fuel-indexed engine for Python `str.replace`: scan left to right and
replace each non-overlapping occurrence of `pat` by `rep`.  Any fuel of at
least the input length makes it total; `pyReplace` below supplies that.
(The guard `pat ≠ []` sidesteps Python's empty-pattern interleaving, which
no call site here exercises.) -/
def replFuel : Nat → List Char → List Char → List Char → List Char
  | 0, l, _, _ => l
  | _ + 1, [], _, _ => []
  | fuel + 1, c :: rest, pat, rep =>
    if pat ≠ [] ∧ pat.isPrefixOf (c :: rest) then
      rep ++ replFuel fuel (List.drop pat.length (c :: rest)) pat rep
    else
      c :: replFuel fuel rest pat rep

/-- Python `l.replace(pat, rep)` on character lists. -/
def pyReplace (l pat rep : List Char) : List Char :=
  replFuel l.length l pat rep

/-- Python `s.replace(pat, rep)` on strings. -/
def pyReplaceStr (s pat rep : String) : String :=
  ⟨pyReplace s.data pat.data rep.data⟩

/-- Python substring containment `pat in l` on character lists. -/
def hasSubstr : List Char → List Char → Bool
  | [], pat => pat.isEmpty
  | c :: rest, pat => pat.isPrefixOf (c :: rest) || hasSubstr rest pat

/-- Python substring containment `pat in s` on strings. -/
def hasSubstrStr (s pat : String) : Bool :=
  hasSubstr s.data pat.data

/-- Python `ch in s` for a single character (as used by `"T" in d`). -/
def pyContainsChar (s : String) (ch : Char) : Bool :=
  s.data.any (fun c => c == ch)

/-- Calendar date, the payload of a parsed `YYYY-MM-DD` string. -/
structure Date where
  year : Nat
  month : Nat
  day : Nat
deriving DecidableEq

/-- Gregorian leap-year rule, as implemented by Python `datetime`. -/
def isLeapYear (y : Nat) : Bool :=
  y % 4 = 0 && (y % 100 ≠ 0 || y % 400 = 0)

/-- Number of days in a month of a given year. -/
def daysInMonth (y m : Nat) : Nat :=
  if m = 2 then (if isLeapYear y then 29 else 28)
  else if m = 4 ∨ m = 6 ∨ m = 9 ∨ m = 11 then 30
  else 31

/-- Models `datetime + timedelta(days=1)`.  Python `datetime` is bounded by
`MAXYEAR = 9999`; stepping past `9999-12-31` raises `OverflowError`, which
is the `none` case here. -/
def addOneDay (d : Date) : Option Date :=
  if d.day < daysInMonth d.year d.month then some ⟨d.year, d.month, d.day + 1⟩
  else if d.month < 12 then some ⟨d.year, d.month + 1, 1⟩
  else if d.year < 9999 then some ⟨d.year + 1, 1, 1⟩
  else none

/-- Decimal digit of a single-digit value, used by `%02d`/`%04d` rendering. -/
def digitChar : Nat → Char
  | 0 => '0' | 1 => '1' | 2 => '2' | 3 => '3' | 4 => '4'
  | 5 => '5' | 6 => '6' | 7 => '7' | 8 => '8' | _ => '9'

/-- Two-digit zero-padded rendering (`%02d`). -/
def twoDigits (n : Nat) : List Char :=
  [digitChar (n / 10 % 10), digitChar (n % 10)]

/-- Four-digit zero-padded rendering (`%04d`). -/
def fourDigits (n : Nat) : List Char :=
  [digitChar (n / 1000 % 10), digitChar (n / 100 % 10),
   digitChar (n / 10 % 10), digitChar (n % 10)]

/-- The `YYYY-MM-DD` character rendering of a date. -/
def dateChars (d : Date) : List Char :=
  fourDigits d.year ++ '-' :: (twoDigits d.month ++ '-' :: twoDigits d.day)

/-- Six-digit zero-padded rendering (`%06d`), used for microseconds. -/
def sixDigits (n : Nat) : List Char :=
  [digitChar (n / 100000 % 10), digitChar (n / 10000 % 10),
   digitChar (n / 1000 % 10), digitChar (n / 100 % 10),
   digitChar (n / 10 % 10), digitChar (n % 10)]

/-- The wall-clock value `datetime.fromisoformat` produces: a calendar date
plus time of day.  A parsed UTC-offset suffix is validated but not stored,
because `_normalize_end_exclusive_iso` immediately discards it with
`.replace(tzinfo=timezone.utc)`. -/
structure PyDateTime where
  date : Date
  hour : Nat
  minute : Nat
  second : Nat
  microsecond : Nat
deriving DecidableEq

/-- The `HH:MM:SS` rendering of a time of day. -/
def timeChars6 (h m s : Nat) : List Char :=
  twoDigits h ++ ':' :: (twoDigits m ++ ':' :: twoDigits s)

/-- The `THH:MM:SS[.ffffff]` part of `datetime.isoformat()`: seconds are
always rendered, microseconds only when non-zero. -/
def isoTimeChars (w : PyDateTime) : List Char :=
  'T' :: timeChars6 w.hour w.minute w.second
    ++ (if w.microsecond = 0 then [] else '.' :: sixDigits w.microsecond)

/-- Models `dt.isoformat()` for a UTC-aware datetime: Python renders
`YYYY-MM-DDTHH:MM:SS[.ffffff]+00:00`. -/
def isoformatUtc (w : PyDateTime) : String :=
  ⟨(dateChars w.date ++ isoTimeChars w) ++ "+00:00".data⟩

/-- The same instant with the `+00:00` offset rendered as `Z`. -/
def isoformatUtcZ (w : PyDateTime) : String :=
  ⟨(dateChars w.date ++ isoTimeChars w) ++ "Z".data⟩

/-- Midnight UTC of a date rendered with a `Z` suffix — the canonical form
the spec describes for normalized boundaries. -/
def midnightUtcZ (d : Date) : String :=
  ⟨dateChars d ++ "T00:00:00Z".data⟩

/-- Value of one decimal digit character, `none` for a non-digit. -/
def parseDigit (c : Char) : Option Nat :=
  if c.isDigit then some (c.toNat - 48) else none

/-- Parses a `YYYY-MM-DD` character list into a date, validating month and
day ranges exactly as `datetime.fromisoformat` does (year 1–9999 forced by
the four digits and the `1 ≤ y` check). -/
def parseYmd (l : List Char) : Option Date :=
  match l with
  | [y1, y2, y3, y4, s1, m1, m2, s2, d1, d2] =>
    match parseDigit y1, parseDigit y2, parseDigit y3, parseDigit y4,
          parseDigit m1, parseDigit m2, parseDigit d1, parseDigit d2 with
    | some a, some b, some c, some e, some f, some g, some h, some i =>
      if s1 = '-' ∧ s2 = '-' then
        let y := 1000 * a + 100 * b + 10 * c + e
        let mo := 10 * f + g
        let da := 10 * h + i
        if 1 ≤ y ∧ 1 ≤ mo ∧ mo ≤ 12 ∧ 1 ≤ da ∧ da ≤ daysInMonth y mo then
          some ⟨y, mo, da⟩
        else none
      else none
    | _, _, _, _, _, _, _, _ => none
  | _ => none

/-- The date-only (`YYYY-MM-DD`) fragment of `datetime.fromisoformat`,
used to state the bare-calendar-date claims; `pyFromisoformat` below is
the full parser the upper-bound normalizer runs. -/
def fromisoformatDate (s : String) : Option Date :=
  parseYmd s.data

/-- Value of a two-digit group. -/
def parse2 (a b : Char) : Option Nat :=
  match parseDigit a, parseDigit b with
  | some x, some y => some (10 * x + y)
  | _, _ => none

/-- Fractional-second group: exactly 3 or 6 digits, scaled to
microseconds, exactly as `parse_hh_mm_ss_ff` accepts it. -/
def parseFrac : List Char → Option Nat
  | [a, b, c] =>
    match parseDigit a, parseDigit b, parseDigit c with
    | some x, some y, some z => some ((100 * x + 10 * y + z) * 1000)
    | _, _, _ => none
  | [a, b, c, d, e, f] =>
    match parseDigit a, parseDigit b, parseDigit c,
          parseDigit d, parseDigit e, parseDigit f with
    | some x, some y, some z, some u, some v, some w =>
      some (100000 * x + 10000 * y + 1000 * z + 100 * u + 10 * v + w)
    | _, _, _, _, _, _ => none
  | _ => none

/-- Models CPython's `parse_hh_mm_ss_ff` on a complete segment: one of
`HH`, `HH:MM`, `HH:MM:SS`, `HH:MM:SS.fff`, `HH:MM:SS.ffffff`, with no
range checking here (the `datetime` constructor checks ranges). -/
def parseHhMmSsFf (l : List Char) : Option (Nat × Nat × Nat × Nat) :=
  match l with
  | h1 :: h2 :: rest1 =>
    match parse2 h1 h2 with
    | none => none
    | some h =>
      match rest1 with
      | [] => some (h, 0, 0, 0)
      | ':' :: m1 :: m2 :: rest2 =>
        match parse2 m1 m2 with
        | none => none
        | some m =>
          match rest2 with
          | [] => some (h, m, 0, 0)
          | ':' :: s1 :: s2 :: rest3 =>
            match parse2 s1 s2 with
            | none => none
            | some sec =>
              match rest3 with
              | [] => some (h, m, sec, 0)
              | '.' :: fr =>
                match parseFrac fr with
                | none => none
                | some us => some (h, m, sec, us)
              | _ => none
          | _ => none
      | _ => none
  | _ => none

/-- Splits the time string at the first `+` or `-` (the start of a UTC
offset), sign included in the second component — CPython scans for the
sign the same way before parsing the time of day. -/
def splitAtSign : List Char → List Char × List Char
  | [] => ([], [])
  | c :: rest =>
    if c = '+' ∨ c = '-' then ([], c :: rest)
    else
      let (a, b) := splitAtSign rest
      (c :: a, b)

/-- Validates an offset suffix as CPython does: total length (sign
included) 6, 9 or 16 (`±HH:MM`, `±HH:MM:SS`, `±HH:MM:SS.ffffff`), parsed
by the same time parser, and accepted by `timezone()` only when strictly
less than 24 hours in magnitude.  The offset value itself is then
discarded by `.replace(tzinfo=timezone.utc)` in the normalizer. -/
def validTzOffset (l : List Char) : Bool :=
  if l.length = 6 ∨ l.length = 9 ∨ l.length = 16 then
    match l with
    | _ :: rest =>
      match parseHhMmSsFf rest with
      | some (h, m, s, us) =>
        (h * 3600 + m * 60 + s) * 1000000 + us < 86400000000
      | none => false
    | [] => false
  else false

/-- The time part of the input: wall-clock time, then an optional valid
offset suffix. -/
def parseIsoTimePart (l : List Char) : Option (Nat × Nat × Nat × Nat) :=
  let (timePart, tzPart) := splitAtSign l
  match parseHhMmSsFf timePart with
  | none => none
  | some t =>
    if tzPart.isEmpty then some t
    else if validTzOffset tzPart then some t
    else none

/-- Models the C implementation of `datetime.fromisoformat` in CPython
3.7–3.10 on the inputs the normalizer can pass it (non-empty, no `T`):
the first ten characters must be a valid `YYYY-MM-DD`; a bare date stands
alone; otherwise one separator character (any character — the source only
reaches here when it is not `T`) is skipped and the remainder must be
`HH[:MM[:SS[.fff|.ffffff]]]` with an optional `±HH:MM[:SS[.ffffff]]`
offset; the constructor then requires hour ≤ 23, minute ≤ 59 and
second ≤ 59.  CPython ≥ 3.11 additionally accepts compact, ordinal and
week dates, reduced-precision and `Z`-suffixed offsets and 1–6
fractional digits; those extensions are outside this model, as is the
pure-Python fallback parser (used only when the C accelerator is
absent). -/
def pyFromisoformat (s : String) : Option PyDateTime :=
  match parseYmd (s.data.take 10) with
  | none => none
  | some d =>
    match s.data.drop 10 with
    | [] => some ⟨d, 0, 0, 0, 0⟩
    | _ :: timeChars =>
      match parseIsoTimePart timeChars with
      | none => none
      | some (h, m, sec, us) =>
        if h ≤ 23 ∧ m ≤ 59 ∧ sec ≤ 59 then some ⟨d, h, m, sec, us⟩
        else none

/-- Embeds `_normalize_start_iso` (audit_operations_store.py, lines 13-26):
falsy input (None or "") yields None; input containing `T` is returned
with `+00:00` replaced by `Z`; otherwise `T00:00:00Z` is appended.  The
source performs no parsing or validation on this side. -/
def normalizeStartIso (d : Option String) : Option String :=
  match d with
  | none => none
  | some s =>
    if s = "" then none
    else if pyContainsChar s 'T' then some (pyReplaceStr s "+00:00" "Z")
    else some (s ++ "T00:00:00Z")

/-- Embeds `_normalize_end_exclusive_iso` (audit_operations_store.py,
lines 29-42): falsy input yields None; input containing `T` is returned
with `+00:00` replaced by `Z`; otherwise the input is parsed with
`datetime.fromisoformat` (raising `ValueError` on malformed input), any
parsed offset is discarded by `.replace(tzinfo=timezone.utc)`, one day is
added to the wall clock (raising `OverflowError` past `9999-12-31`), and
the result is rendered via `isoformat()` with `+00:00` replaced by `Z`. -/
def normalizeEndExclusiveIso (d : Option String) : Except PyError (Option String) :=
  match d with
  | none => .ok none
  | some s =>
    if s = "" then .ok none
    else if pyContainsChar s 'T' then .ok (some (pyReplaceStr s "+00:00" "Z"))
    else
      match pyFromisoformat s with
      | none => .error (.valueError s)
      | some w =>
        match addOneDay w.date with
        | none => .error .overflowError
        | some d2 =>
          .ok (some (pyReplaceStr
            (isoformatUtc ⟨d2, w.hour, w.minute, w.second, w.microsecond⟩)
            "+00:00" "Z"))

/-- Python truthiness of an `Optional[str]`: `None` and `""` are falsy. -/
def pyTruthyOpt : Option String → Bool
  | none => false
  | some s => s ≠ ""

/-- A bound query parameter, one of the `{"name": ..., "value": ...}`
dictionaries built by the store layer. -/
inductive PValue where
  | str (s : String)
  | num (q : ℚ)
deriving DecidableEq

/-- A named parameter binding. -/
structure QueryParam where
  pname : String
  value : PValue
deriving DecidableEq

/-- The parameterized query a store operation assembles: the WHERE-clause
conjuncts in order, the parallel parameter bindings, and the result bound
(`none` when the SQL text carries no `OFFSET 0 LIMIT n` tail). -/
structure StoreQuery where
  whereClauses : List String
  parameters : List QueryParam
  limit : Option Int
deriving DecidableEq

/-- Embeds the repeated Python pattern `if v: where.append(clause);
params.append({"name": pname, "value": v})` for an optional string
criterion (truthiness test). -/
def appendIfStr (wp : List String × List QueryParam) (v : Option String)
    (clause pname : String) : List String × List QueryParam :=
  match v with
  | some s => if s ≠ "" then (wp.1 ++ [clause], wp.2 ++ [⟨pname, PValue.str s⟩]) else wp
  | none => wp

/-- Embeds `if v is not None: where.append(clause); params.append(...)` for
an optional numeric criterion; `float(v)` is the identity on the value. -/
def appendIfNum (wp : List String × List QueryParam) (v : Option ℚ)
    (clause pname : String) : List String × List QueryParam :=
  match v with
  | some q => (wp.1 ++ [clause], wp.2 ++ [⟨pname, PValue.num q⟩])
  | none => wp

/-- Embeds `AuditOperationsStore.query_invoices` (lines 153-205): the
normalizers run first (a `ValueError`/`OverflowError` from the upper bound
propagates), then the WHERE list starts with the tenant equality and grows
in the fixed source order date-from, date-to, vendor, status, min-amount,
max-amount; the SQL tail is `OFFSET 0 LIMIT int(limit)` with the caller's
limit verbatim. -/
def queryInvoicesPlan (engagement_id : String)
    (date_from date_to vendor_id status : Option String)
    (min_amount max_amount : Option ℚ) (limit : Int) :
    Except PyError StoreQuery := do
  let df := normalizeStartIso date_from
  let dt ← normalizeEndExclusiveIso date_to
  let wp0 := (["c.engagement_id = @engagement_id"],
              [QueryParam.mk "@engagement_id" (PValue.str engagement_id)])
  let wp1 := appendIfStr wp0 df "c.invoice_date >= @date_from" "@date_from"
  let wp2 := appendIfStr wp1 dt "c.invoice_date < @date_to" "@date_to"
  let wp3 := appendIfStr wp2 vendor_id "c.vendor_id = @vendor_id" "@vendor_id"
  let wp4 := appendIfStr wp3 status "c.status = @status" "@status"
  let wp5 := appendIfNum wp4 min_amount "c.amount >= @min_amount" "@min_amount"
  let wp6 := appendIfNum wp5 max_amount "c.amount <= @max_amount" "@max_amount"
  return { whereClauses := wp6.1, parameters := wp6.2, limit := some limit }

/-- Embeds `AuditOperationsStore.get_payments_for_invoice` (lines 132-150):
two fixed equality predicates and no `OFFSET`/`LIMIT` tail at all. -/
def getPaymentsForInvoicePlan (engagement_id invoice_id : String) : StoreQuery :=
  { whereClauses := ["c.engagement_id = @engagement_id", "c.invoice_id = @invoice_id"]
    parameters := [⟨"@engagement_id", PValue.str engagement_id⟩,
                   ⟨"@invoice_id", PValue.str invoice_id⟩]
    limit := none }

/-- A stored document: a dynamic mapping of field name to string value, the
shape this layer treats as opaque. -/
abbrev Record := List (String × String)

/-- Field projection `c.field` over a record; an absent field compares
unequal to every value, as in Cosmos SQL. -/
def getField : Record → String → Option String
  | [], _ => none
  | (k, v) :: rest, f => if k = f then some v else getField rest f

/-- The point-lookup query `SELECT TOP 1 * FROM c WHERE c.engagement_id =
@engagement_id AND c.invoice_id = @invoice_id` of `get_invoice`
(lines 81-96), with parameters already resolved: a `TOP` bound of one and
two equality predicates. -/
structure PointQuery where
  topN : Option Nat
  eqFilters : List (String × String)
deriving DecidableEq

/-- The query `get_invoice` assembles. -/
def invoicePointQuery (engagement_id invoice_id : String) : PointQuery :=
  { topN := some 1
    eqFilters := [("engagement_id", engagement_id), ("invoice_id", invoice_id)] }

/-- A record satisfies all equality predicates of a point query. -/
def matchesAll (r : Record) (fs : List (String × String)) : Bool :=
  fs.all (fun p => getField r p.1 == some p.2)

/-- Models the record-store collaborator executing a point query against a
container held in its native ordering: filter by the conjunction of
equality predicates, then apply the `TOP` bound. -/
def execPointQuery (container : List Record) (q : PointQuery) : List Record :=
  let m := container.filter (fun r => matchesAll r q.eqFilters)
  match q.topN with
  | some n => m.take n
  | none => m

/-- Embeds `AuditOperationsStore.get_invoice`: iterate the query results
and return the first item, or `None` when the stream is empty. -/
def get_invoice (container : List Record) (engagement_id invoice_id : String) :
    Option Record :=
  (execPointQuery container (invoicePointQuery engagement_id invoice_id)).head?

/-- Python `result or {}` for an optional record result. -/
def pyOrEmptyRecord (r : Option Record) : Record :=
  match r with
  | none => []
  | some d => if d = [] then [] else d

/-- Python `results or []` for a list result. -/
def pyOrEmptyList (l : List Record) : List Record :=
  if l = [] then [] else l

/-- Embeds the `get_invoice` tool of app.py (lines 27-56): the store call
either raises (modelled as the `Except.error` input) — which the tool
catches, logs, and converts to `{}` — or returns an optional record, which
is returned as `result or {}`. -/
def get_invoice_tool (res : Except PyError (Option Record)) : Record :=
  match res with
  | .error _ => []
  | .ok r => pyOrEmptyRecord r

/-- Embeds the `get_vendor` tool of app.py (lines 59-82). -/
def get_vendor_tool (res : Except PyError (Option Record)) : Record :=
  match res with
  | .error _ => []
  | .ok r => pyOrEmptyRecord r

/-- Embeds the `get_payment` tool of app.py (lines 85-108). -/
def get_payment_tool (res : Except PyError (Option Record)) : Record :=
  match res with
  | .error _ => []
  | .ok r => pyOrEmptyRecord r

/-- Embeds the `get_payments_for_invoice` tool of app.py (lines 111-134). -/
def get_payments_for_invoice_tool (res : Except PyError (List Record)) : List Record :=
  match res with
  | .error _ => []
  | .ok l => pyOrEmptyList l

/-- Embeds the `query_invoices` tool of app.py (lines 138-188). -/
def query_invoices_tool (res : Except PyError (List Record)) : List Record :=
  match res with
  | .error _ => []
  | .ok l => pyOrEmptyList l

/-- Embeds the `query_payments` tool of app.py (lines 191-230). -/
def query_payments_tool (res : Except PyError (List Record)) : List Record :=
  match res with
  | .error _ => []
  | .ok l => pyOrEmptyList l

/-- The immutable configuration of `AuditPolicySearchIndex` set in
`__init__` (endpoint, index name, key); `search` reads but never writes
it — there is no persistent vectorization-preference field at all. -/
structure EngineState where
  endpoint : String
  indexName : String
  apiKey : String
deriving DecidableEq

/-- The two request shapes a vector query can take: the server-vectorized
`VectorizableTextQuery` or the raw app-side vector dictionary. -/
inductive VectorQueryShape where
  | vectorizableText (text : String) (k : Int) (fields vectorizer : String)
  | rawVector (vector : List ℚ) (k : Int) (fields : String)
deriving DecidableEq

/-- The single combined request `search` issues to the index: keyword text,
optional tenant filter, the chosen vector query, and the `top` cap. -/
structure SearchRequest where
  searchText : String
  filterExpr : Option String
  vectorQueries : List VectorQueryShape
  top : Int
deriving DecidableEq

/-- Observable outcome of one `search` call: the request sent, the list of
argument batches passed to `EmbeddingClient.embed` (one entry per
invocation), and the engine state after the call. -/
structure SearchOutcome where
  request : SearchRequest
  embedCalls : List (List String)
  finalState : EngineState
deriving DecidableEq

/-- Embeds `AuditPolicySearchIndex.search` (search_index.py, lines
219-288).  `sdkHasVectorizableTextQuery` models whether the
`from azure.search.documents.models import VectorizableTextQuery` block
succeeds (capability detection); on failure the local variable
`use_server_vectorizer` is reassigned to `False` for this call and the
app-side branch runs `self.embedder.embed([query])[0]`.  `embedFn` models
the embedding service, which returns one vector per input text. -/
def searchBuild (st : EngineState) (sdkHasVectorizableTextQuery : Bool)
    (embedFn : List String → List (List ℚ)) (query : String)
    (engagement_id : Option String) (top : Int)
    (use_server_vectorizer : Bool) : SearchOutcome :=
  let filterExpr : Option String :=
    match engagement_id with
    | none => none
    | some e => if e = "" then none else some ("engagement_id eq \x27" ++ e ++ "\x27")
  if use_server_vectorizer && sdkHasVectorizableTextQuery then
    { request := { searchText := query, filterExpr := filterExpr,
                   vectorQueries := [.vectorizableText query top "content_vector" "my-vectorizer"],
                   top := top }
      embedCalls := []
      finalState := st }
  else
    let queryVector := (embedFn [query]).headD []
    { request := { searchText := query, filterExpr := filterExpr,
                   vectorQueries := [.rawVector queryVector top "content_vector"],
                   top := top }
      embedCalls := [[query]]
      finalState := st }

/-- Mutable fields of `AuditOperationsStore` touched by `_ensure_client`,
plus counters for how many times `DefaultAzureCredential()` and
`CosmosClient(...)` constructions ran; a client is identified by the
ordinal of the construction that produced it. -/
structure StoreState where
  credentialInits : Nat
  clientInits : Nat
  client : Option Nat
  database : Option Nat
deriving DecidableEq

/-- State after `__init__`: no client, no credential, nothing built. -/
def initialStoreState : StoreState := ⟨0, 0, none, none⟩

/-- Embeds `AuditOperationsStore._ensure_client` (lines 68-73).  Under
Python asyncio's cooperative single-threaded scheduling the body contains
no suspension point (`DefaultAzureCredential`, `CosmosClient` and
`get_database_client` are plain synchronous constructions), so each call
runs to completion atomically; concurrency is modelled below as an
arbitrary interleaving of these atomic calls.  Returns the client the
caller observes afterwards. -/
def ensureClient (s : StoreState) : StoreState × Nat :=
  match s.client with
  | some cid => (s, cid)
  | none =>
    let cid := s.clientInits
    (⟨s.credentialInits + 1, s.clientInits + 1, some cid, some cid⟩, cid)

/-- Runs `n` concurrent first-time operations, each performing one atomic
`_ensure_client` call, in scheduler order; collects the client each caller
observes.  Since the calls are indistinguishable, every interleaving of
`n` callers is this sequential composition. -/
def runEnsureAll : Nat → StoreState → StoreState × List Nat
  | 0, s => (s, [])
  | n + 1, s =>
    let (s1, c) := ensureClient s
    let (s2, cs) := runEnsureAll n s1
    (s2, c :: cs)

/-- Sample invoice record used to exercise the point lookup. -/
def sampleInvoiceA : Record :=
  [("engagement_id", "E"), ("invoice_id", "I"), ("amount", "100")]

/-- A second record with the same composite key (the data-integrity
condition the spec flags as a known limitation). -/
def sampleInvoiceB : Record :=
  [("engagement_id", "E"), ("invoice_id", "I"), ("amount", "200")]

/-- A container holding both sample records in native order. -/
def sampleContainer : List Record := [sampleInvoiceA, sampleInvoiceB]

/-! ### Helper lemmas about the string-processing model -/

/-- Replacing in an empty list yields an empty list at any fuel. -/
theorem replFuel_nil (f : Nat) (pat rep : List Char) : replFuel f [] pat rep = [] := by
  cases f <;> rfl

/-- A list is a prefix of itself. -/
theorem isPrefixOf_self (l : List Char) : l.isPrefixOf l = true := by
  induction l with
  | nil => rfl
  | cons c rest ih => simp [List.isPrefixOf, ih]

/-- When the pattern does not occur in the input, replacement is the
identity (at any fuel). -/
theorem replFuel_id (rep : List Char) :
    ∀ (f : Nat) (l pat : List Char), hasSubstr l pat = false → replFuel f l pat rep = l := by
  intro f
  induction f with
  | zero => intro l pat _; rfl
  | succ f ih =>
    intro l pat h
    cases l with
    | nil => rfl
    | cons c rest =>
      unfold hasSubstr at h
      rw [Bool.or_eq_false_iff] at h
      unfold replFuel
      rw [if_neg fun hh => by rw [h.1] at hh; exact Bool.false_ne_true hh.2]
      rw [ih rest pat h.2]

/-- When the pattern does not occur in the input, `pyReplace` is the
identity. -/
theorem pyReplace_id {l pat : List Char} (rep : List Char)
    (h : hasSubstr l pat = false) : pyReplace l pat rep = l :=
  replFuel_id rep l.length l pat h

/-- Replacing a pattern that occurs exactly as the suffix of the input,
with no occurrence of the pattern's head character before it, rewrites
just that suffix. -/
theorem replFuel_append_self (pat rep : List Char) (hne : pat ≠ []) :
    ∀ (t : List Char) (f : Nat), t.length + pat.length ≤ f →
      (∀ c ∈ t, pat.head? ≠ some c) →
      replFuel f (t ++ pat) pat rep = t ++ rep := by
  intro t
  induction t with
  | nil =>
    intro f hf _
    cases pat with
    | nil => exact absurd rfl hne
    | cons p ps =>
      cases f with
      | zero => simp at hf
      | succ f =>
        show replFuel (f + 1) (p :: ps) (p :: ps) rep = rep
        unfold replFuel
        rw [if_pos ⟨hne, isPrefixOf_self (p :: ps)⟩]
        rw [List.drop_length, replFuel_nil, List.append_nil]
  | cons c t ih =>
    intro f hf hmem
    cases f with
    | zero => simp [List.length_cons] at hf
    | succ f =>
      have hc : pat.head? ≠ some c := hmem c (List.mem_cons_self c t)
      show replFuel (f + 1) (c :: (t ++ pat)) pat rep = c :: (t ++ rep)
      unfold replFuel
      rw [if_neg]
      · rw [ih f (by simp [List.length_cons] at hf; omega)
          (fun x hx => hmem x (List.mem_cons_of_mem c hx))]
      · rintro ⟨hp1, hp2⟩
        cases pat with
        | nil => exact hp1 rfl
        | cons p ps =>
          simp [List.isPrefixOf] at hp2
          exact hc (by rw [hp2.1]; rfl)

/-- Specialization to the `+00:00 → Z` rewrite performed by the source. -/
theorem pyReplace_plus_suffix (t : List Char) (h : '+' ∉ t) :
    pyReplace (t ++ "+00:00".data) "+00:00".data "Z".data = t ++ "Z".data := by
  unfold pyReplace
  apply replFuel_append_self "+00:00".data "Z".data (by decide) t
  · simp [List.length_append]
  · intro c hc heq
    have : c = '+' := by
      have h2 : some '+' = some c := heq ▸ rfl
      exact (Option.some.injEq _ _ ▸ h2).symm
    exact h (this ▸ hc)

/-- Replacement with a non-empty replacement never empties a non-empty
input. -/
theorem pyReplace_ne_nil {l pat rep : List Char} (hl : l ≠ []) (hrep : rep ≠ []) :
    pyReplace l pat rep ≠ [] := by
  cases l with
  | nil => exact absurd rfl hl
  | cons c rest =>
    show replFuel (rest.length + 1) (c :: rest) pat rep ≠ []
    unfold replFuel
    split
    · intro hcontr
      rcases List.append_eq_nil.mp hcontr with ⟨h1, _⟩
      exact hrep h1
    · exact List.cons_ne_nil c _

/-- A rendered digit is never the sign character of a UTC offset. -/
theorem digitChar_ne_plus (n : Nat) : digitChar n ≠ '+' := by
  unfold digitChar
  split <;> decide

/-- The offset sign does not occur in a four-digit rendering. -/
theorem plus_not_mem_fourDigits (n : Nat) : '+' ∉ fourDigits n := by
  intro h
  simp only [fourDigits, List.mem_cons, List.not_mem_nil, or_false] at h
  rcases h with h | h | h | h <;> exact digitChar_ne_plus _ h.symm

/-- The offset sign does not occur in a two-digit rendering. -/
theorem plus_not_mem_twoDigits (n : Nat) : '+' ∉ twoDigits n := by
  intro h
  simp only [twoDigits, List.mem_cons, List.not_mem_nil, or_false] at h
  rcases h with h | h <;> exact digitChar_ne_plus _ h.symm

/-- The offset sign does not occur in a six-digit rendering. -/
theorem plus_not_mem_sixDigits (n : Nat) : '+' ∉ sixDigits n := by
  intro h
  simp only [sixDigits, List.mem_cons, List.not_mem_nil, or_false] at h
  rcases h with h | h | h | h | h | h <;> exact digitChar_ne_plus _ h.symm

/-- The offset sign does not occur in a rendered date. -/
theorem plus_not_mem_dateChars (d : Date) : '+' ∉ dateChars d := by
  intro h
  unfold dateChars at h
  rcases List.mem_append.mp h with h | h
  · exact plus_not_mem_fourDigits _ h
  · rcases List.mem_cons.mp h with h | h
    · exact absurd h (by decide)
    · rcases List.mem_append.mp h with h | h
      · exact plus_not_mem_twoDigits _ h
      · rcases List.mem_cons.mp h with h | h
        · exact absurd h (by decide)
        · exact plus_not_mem_twoDigits _ h

/-- The offset sign does not occur in a rendered time of day. -/
theorem plus_not_mem_timeChars6 (h m s : Nat) : '+' ∉ timeChars6 h m s := by
  intro hmem
  unfold timeChars6 at hmem
  rcases List.mem_append.mp hmem with hx | hx
  · exact plus_not_mem_twoDigits _ hx
  · rcases List.mem_cons.mp hx with hx | hx
    · exact absurd hx (by decide)
    · rcases List.mem_append.mp hx with hx | hx
      · exact plus_not_mem_twoDigits _ hx
      · rcases List.mem_cons.mp hx with hx | hx
        · exact absurd hx (by decide)
        · exact plus_not_mem_twoDigits _ hx

/-- The offset sign occurs nowhere before the offset itself in a rendered
UTC timestamp. -/
theorem plus_not_mem_isoPrefix (w : PyDateTime) :
    '+' ∉ dateChars w.date ++ isoTimeChars w := by
  intro h
  rcases List.mem_append.mp h with h | h
  · exact plus_not_mem_dateChars _ h
  · unfold isoTimeChars at h
    rcases List.mem_cons.mp h with h | h
    · exact absurd h (by decide)
    · rcases List.mem_append.mp h with h | h
      · exact plus_not_mem_timeChars6 _ _ _ h
      · by_cases hus : w.microsecond = 0
        · rw [if_pos hus] at h
          exact absurd h (List.not_mem_nil _)
        · rw [if_neg hus] at h
          rcases List.mem_cons.mp h with h | h
          · exact absurd h (by decide)
          · exact plus_not_mem_sixDigits _ h

/-- Appending a non-empty list never yields the empty list. -/
theorem append_ne_nil_right {t u : List Char} (hu : u ≠ []) : t ++ u ≠ [] := by
  intro h
  rcases List.append_eq_nil.mp h with ⟨-, h2⟩
  exact hu h2

/-- The `+00:00 → Z` rewrite of an `isoformat()` rendering yields exactly
the `Z`-suffixed form. -/
theorem replace_isoformatUtc (w : PyDateTime) :
    pyReplaceStr (isoformatUtc w) "+00:00" "Z" = isoformatUtcZ w := by
  unfold pyReplaceStr isoformatUtc isoformatUtcZ
  congr 1
  exact pyReplace_plus_suffix _ (plus_not_mem_isoPrefix w)

/-- A digit character is never `T`. -/
theorem parseDigit_ne_T {c : Char} {n : Nat} (h : parseDigit c = some n) :
    (c == 'T') = false := by
  unfold parseDigit at h
  split at h
  · next hd =>
    rw [beq_eq_false_iff_ne]
    intro heq
    rw [heq] at hd
    exact absurd hd (by decide)
  · exact absurd h (by simp)

/-- A successfully parsed date string is non-empty, contains no `T`, and
is exactly ten characters long. -/
theorem parseYmd_shape {l : List Char} {d : Date} (h : parseYmd l = some d) :
    l ≠ [] ∧ l.any (fun c => c == 'T') = false ∧ l.length = 10 := by
  unfold parseYmd at h
  split at h
  · next y1 y2 y3 y4 s1 m1 m2 s2 d1 d2 =>
    split at h
    · next a b c e f g hh i ha hb hc he hf hg hha hi =>
      split at h
      · next hsep =>
        refine ⟨by simp, ?_, by simp⟩
        simp only [List.any_cons, List.any_nil, Bool.or_eq_false_iff]
        refine ⟨parseDigit_ne_T ha, parseDigit_ne_T hb, parseDigit_ne_T hc,
          parseDigit_ne_T he, ?_, parseDigit_ne_T hf, parseDigit_ne_T hg, ?_,
          parseDigit_ne_T hha, parseDigit_ne_T hi, trivial⟩
        · rw [hsep.1]; rfl
        · rw [hsep.2]; rfl
      · exact absurd h (by simp)
    · exact absurd h (by simp)
  · exact absurd h (by simp)

/-- A successfully parsed date string is non-empty and contains no `T`
(string form). -/
theorem fromisoformatDate_shape {s : String} {d : Date}
    (h : fromisoformatDate s = some d) :
    s ≠ "" ∧ pyContainsChar s 'T' = false := by
  obtain ⟨h1, h2, -⟩ := parseYmd_shape h
  constructor
  · intro hs
    rw [hs] at h1
    exact h1 rfl
  · exact h2

/-- A string whose character list is non-empty is not the empty string. -/
theorem ne_empty_of_data_ne_nil {s : String} (h : s.data ≠ []) : s ≠ "" := by
  intro hs
  rw [hs] at h
  exact h rfl

/-- The character list of a non-empty string is non-empty. -/
theorem data_ne_nil_of_ne_empty {s : String} (h : s ≠ "") : s.data ≠ [] := by
  intro hd
  exact h (String.ext hd)

/-- Lower-bound normalization preserves Python truthiness of the input:
the output is present and non-empty exactly when the input is. -/
theorem pyTruthyOpt_normalizeStartIso (o : Option String) :
    pyTruthyOpt (normalizeStartIso o) = pyTruthyOpt o := by
  cases o with
  | none => rfl
  | some s =>
    by_cases hs : s = ""
    · subst hs; rfl
    · simp only [normalizeStartIso]
      rw [if_neg hs]
      by_cases ht : pyContainsChar s 'T' = true
      · rw [if_pos ht]
        have hd : pyReplace s.data "+00:00".data "Z".data ≠ [] :=
          pyReplace_ne_nil (data_ne_nil_of_ne_empty hs) (by decide)
        have hx : pyReplaceStr s "+00:00" "Z" ≠ "" := ne_empty_of_data_ne_nil hd
        simp [pyTruthyOpt, hx, hs]
      · rw [if_neg ht]
        have hx : s ++ "T00:00:00Z" ≠ "" := by
          apply ne_empty_of_data_ne_nil
          rw [String.data_append]
          simp
        simp [pyTruthyOpt, hx, hs]

/-- Upper-bound normalization, when it succeeds, preserves Python
truthiness of the input. -/
theorem pyTruthyOpt_normalizeEnd {o r : Option String}
    (h : normalizeEndExclusiveIso o = .ok r) : pyTruthyOpt r = pyTruthyOpt o := by
  cases o with
  | none =>
    simp only [normalizeEndExclusiveIso, Except.ok.injEq] at h
    subst h
    rfl
  | some s =>
    simp only [normalizeEndExclusiveIso] at h
    by_cases hs : s = ""
    · rw [if_pos hs] at h
      simp only [Except.ok.injEq] at h
      subst h
      simp [pyTruthyOpt, hs]
    · rw [if_neg hs] at h
      by_cases ht : pyContainsChar s 'T' = true
      · rw [if_pos ht] at h
        simp only [Except.ok.injEq] at h
        subst h
        have hd : pyReplace s.data "+00:00".data "Z".data ≠ [] :=
          pyReplace_ne_nil (data_ne_nil_of_ne_empty hs) (by decide)
        have hx : pyReplaceStr s "+00:00" "Z" ≠ "" := ne_empty_of_data_ne_nil hd
        simp [pyTruthyOpt, hx, hs]
      · rw [if_neg ht] at h
        split at h
        · exact absurd h (by simp)
        · next w hw =>
          split at h
          · exact absurd h (by simp)
          · next d2 hd2 =>
            simp only [Except.ok.injEq] at h
            subst h
            rw [replace_isoformatUtc]
            have hx : isoformatUtcZ ⟨d2, w.hour, w.minute, w.second, w.microsecond⟩ ≠ "" := by
              apply ne_empty_of_data_ne_nil
              show (dateChars d2 ++ isoTimeChars _) ++ "Z".data ≠ []
              exact append_ne_nil_right (by decide)
            simp [pyTruthyOpt, hx, hs]

/-- Characterization of the conditional append for string criteria. -/
theorem appendIfStr_spec (wp : List String × List QueryParam) (v : Option String)
    (clause pname : String) :
    (appendIfStr wp v clause pname).1 = wp.1 ++ (if pyTruthyOpt v then [clause] else [])
    ∧ (appendIfStr wp v clause pname).2.length
        = wp.2.length + (if pyTruthyOpt v then 1 else 0) := by
  cases v with
  | none => simp [appendIfStr, pyTruthyOpt]
  | some s =>
    by_cases hs : s = "" <;> simp [appendIfStr, pyTruthyOpt, hs]

/-- Characterization of the conditional append for numeric criteria. -/
theorem appendIfNum_spec (wp : List String × List QueryParam) (v : Option ℚ)
    (clause pname : String) :
    (appendIfNum wp v clause pname).1 = wp.1 ++ (if v.isSome then [clause] else [])
    ∧ (appendIfNum wp v clause pname).2.length
        = wp.2.length + (if v.isSome then 1 else 0) := by
  cases v <;> simp [appendIfNum]

/-- Full characterization of a successful `query_invoices` plan: tenant
clause first, then one clause per present criterion in the fixed source
order, parameters parallel to the clauses, and the caller's limit
attached verbatim. -/
theorem queryInvoicesPlan_ok {e : String} {dfI dtI vI sI : Option String}
    {mn mx : Option ℚ} {lim : Int} {q : StoreQuery}
    (h : queryInvoicesPlan e dfI dtI vI sI mn mx lim = .ok q) :
    q.whereClauses =
      ["c.engagement_id = @engagement_id"]
      ++ (if pyTruthyOpt dfI then ["c.invoice_date >= @date_from"] else [])
      ++ (if pyTruthyOpt dtI then ["c.invoice_date < @date_to"] else [])
      ++ (if pyTruthyOpt vI then ["c.vendor_id = @vendor_id"] else [])
      ++ (if pyTruthyOpt sI then ["c.status = @status"] else [])
      ++ (if mn.isSome then ["c.amount >= @min_amount"] else [])
      ++ (if mx.isSome then ["c.amount <= @max_amount"] else [])
    ∧ q.parameters.length = q.whereClauses.length
    ∧ q.limit = some lim := by
  unfold queryInvoicesPlan at h
  cases hdt : normalizeEndExclusiveIso dtI with
  | error err =>
    rw [hdt] at h
    exact absurd h (by simp [Bind.bind, Except.bind])
  | ok dtv =>
    rw [hdt] at h
    simp only [Bind.bind, Except.bind, pure, Except.pure, Except.ok.injEq] at h
    subst h
    have hdf := pyTruthyOpt_normalizeStartIso dfI
    have hdtv := pyTruthyOpt_normalizeEnd hdt
    refine ⟨?_, ?_, rfl⟩
    · show (appendIfNum (appendIfNum (appendIfStr (appendIfStr (appendIfStr (appendIfStr
        (["c.engagement_id = @engagement_id"],
         [QueryParam.mk "@engagement_id" (PValue.str e)])
        (normalizeStartIso dfI) "c.invoice_date >= @date_from" "@date_from")
        dtv "c.invoice_date < @date_to" "@date_to")
        vI "c.vendor_id = @vendor_id" "@vendor_id")
        sI "c.status = @status" "@status")
        mn "c.amount >= @min_amount" "@min_amount")
        mx "c.amount <= @max_amount" "@max_amount").1 = _
      rw [(appendIfNum_spec _ mx _ _).1, (appendIfNum_spec _ mn _ _).1,
        (appendIfStr_spec _ sI _ _).1, (appendIfStr_spec _ vI _ _).1,
        (appendIfStr_spec _ dtv _ _).1, (appendIfStr_spec _ (normalizeStartIso dfI) _ _).1,
        hdf, hdtv]
    · have hboth : ∀ wp : List String × List QueryParam, wp = (appendIfNum (appendIfNum
        (appendIfStr (appendIfStr (appendIfStr (appendIfStr
        (["c.engagement_id = @engagement_id"],
         [QueryParam.mk "@engagement_id" (PValue.str e)])
        (normalizeStartIso dfI) "c.invoice_date >= @date_from" "@date_from")
        dtv "c.invoice_date < @date_to" "@date_to")
        vI "c.vendor_id = @vendor_id" "@vendor_id")
        sI "c.status = @status" "@status")
        mn "c.amount >= @min_amount" "@min_amount")
        mx "c.amount <= @max_amount" "@max_amount") -> wp.2.length = wp.1.length := by
        rintro wp rfl
        rw [(appendIfNum_spec _ mx _ _).2, (appendIfNum_spec _ mn _ _).2,
          (appendIfStr_spec _ sI _ _).2, (appendIfStr_spec _ vI _ _).2,
          (appendIfStr_spec _ dtv _ _).2, (appendIfStr_spec _ (normalizeStartIso dfI) _ _).2,
          (appendIfNum_spec _ mx _ _).1, (appendIfNum_spec _ mn _ _).1,
          (appendIfStr_spec _ sI _ _).1, (appendIfStr_spec _ vI _ _).1,
          (appendIfStr_spec _ dtv _ _).1, (appendIfStr_spec _ (normalizeStartIso dfI) _ _).1]
        simp [List.length_append, apply_ite List.length]
        omega
      exact hboth _ rfl

/-- After a client exists, further `_ensure_client` calls change nothing
and every caller observes that same client. -/
theorem runEnsureAll_initialized {cid : Nat} :
    ∀ (n : Nat) (s : StoreState), s.client = some cid →
      runEnsureAll n s = (s, List.replicate n cid) := by
  intro n
  induction n with
  | zero => intro s h; rfl
  | succ m ih =>
    intro s h
    have he : ensureClient s = (s, cid) := by
      simp [ensureClient, h]
    unfold runEnsureAll
    simp only [he, ih s h, List.replicate_succ]

/-! ### Claim theorems -/

/-- C1 counterexample: the claim quantifies over every bare calendar date,
but at the last representable date `9999-12-31` the upper normalizer does
not return midnight of the following day — `datetime + timedelta(days=1)`
raises `OverflowError` instead. -/
theorem normalizeEnd_max_date_overflow :
    normalizeEndExclusiveIso (some "9999-12-31") = .error .overflowError := by
  decide

/-- C1 (amended): for every bare calendar date string that parses and whose
following day is representable (every valid `YYYY-MM-DD` except
`9999-12-31`), lower normalization appends `T00:00:00Z` and upper
normalization yields midnight UTC of the following calendar day with a `Z`
suffix. -/
theorem bare_date_normalization {s : String} {d dd : Date}
    (hparse : fromisoformatDate s = some d) (hnext : addOneDay d = some dd) :
    normalizeStartIso (some s) = some (s ++ "T00:00:00Z")
    ∧ normalizeEndExclusiveIso (some s) = .ok (some (midnightUtcZ dd)) := by
  obtain ⟨hne, hT⟩ := fromisoformatDate_shape hparse
  have hp : parseYmd s.data = some d := hparse
  have hlen : s.data.length = 10 := (parseYmd_shape hp).2.2
  have hfull : pyFromisoformat s = some ⟨d, 0, 0, 0, 0⟩ := by
    unfold pyFromisoformat
    rw [List.take_of_length_le (le_of_eq hlen), List.drop_eq_nil_of_le (le_of_eq hlen)]
    simp [hp]
  have hmid : pyReplaceStr (isoformatUtc ⟨dd, 0, 0, 0, 0⟩) "+00:00" "Z"
      = midnightUtcZ dd := by
    rw [replace_isoformatUtc]
    unfold isoformatUtcZ midnightUtcZ
    congr 1
    rw [List.append_assoc]
    congr 1
    show ('T' :: (timeChars6 0 0 0
        ++ (if (0 : Nat) = 0 then [] else '.' :: sixDigits 0))) ++ "Z".data
      = "T00:00:00Z".data
    decide
  constructor
  · simp [normalizeStartIso, hne, hT]
  · simp [normalizeEndExclusiveIso, hne, hT, hfull, hnext, hmid]

/-- C1 witness: the spec scenario `date_from="2025-07-01"`,
`date_to="2025-09-30"` yields `2025-07-01T00:00:00Z` and
`2025-10-01T00:00:00Z`. -/
theorem bare_date_normalization_witness :
    (fromisoformatDate "2025-07-01" = some ⟨2025, 7, 1⟩
      ∧ addOneDay (⟨2025, 7, 1⟩ : Date) = some ⟨2025, 7, 2⟩
      ∧ fromisoformatDate "2025-09-30" = some ⟨2025, 9, 30⟩
      ∧ addOneDay (⟨2025, 9, 30⟩ : Date) = some ⟨2025, 10, 1⟩)
    ∧ normalizeStartIso (some "2025-07-01") = some "2025-07-01T00:00:00Z"
    ∧ normalizeEndExclusiveIso (some "2025-09-30") = .ok (some "2025-10-01T00:00:00Z") := by
  have h1 := @bare_date_normalization "2025-07-01" ⟨2025, 7, 1⟩ ⟨2025, 7, 2⟩
    (by decide) (by decide)
  have h2 := @bare_date_normalization "2025-09-30" ⟨2025, 9, 30⟩ ⟨2025, 10, 1⟩
    (by decide) (by decide)
  exact ⟨⟨by decide, by decide, by decide, by decide⟩,
    h1.1.trans (by decide), h2.2.trans (by decide)⟩

/-- C2: the invoice filter clause list is a deterministic function of the
criteria (the embedding is a pure function): the tenant-equality clause on
`engagement_id` comes first, each absent or empty criterion emits no
clause, present criteria appear in the fixed order date-from, date-to,
vendor, status, min-amount, max-amount, and the bound parameters stay
parallel to the clause list. -/
theorem invoice_filter_clause_order {e : String} {dfI dtI vI sI : Option String}
    {mn mx : Option ℚ} {lim : Int} {q : StoreQuery}
    (h : queryInvoicesPlan e dfI dtI vI sI mn mx lim = .ok q) :
    q.whereClauses.head? = some "c.engagement_id = @engagement_id"
    ∧ q.whereClauses =
        ["c.engagement_id = @engagement_id"]
        ++ (if pyTruthyOpt dfI then ["c.invoice_date >= @date_from"] else [])
        ++ (if pyTruthyOpt dtI then ["c.invoice_date < @date_to"] else [])
        ++ (if pyTruthyOpt vI then ["c.vendor_id = @vendor_id"] else [])
        ++ (if pyTruthyOpt sI then ["c.status = @status"] else [])
        ++ (if mn.isSome then ["c.amount >= @min_amount"] else [])
        ++ (if mx.isSome then ["c.amount <= @max_amount"] else [])
    ∧ q.parameters.length = q.whereClauses.length := by
  obtain ⟨h1, h2, _⟩ := queryInvoicesPlan_ok h
  refine ⟨?_, h1, h2⟩
  rw [h1]
  rfl

/-- C2 witness: `vendor_id="VEN-1000"`, `min_amount=1000`, `limit=50`
emits exactly `[engagement_id=?, vendor_id=?, amount>=?]` in that order
with 3 bound parameters. -/
theorem invoice_filter_clause_order_witness :
    (queryInvoicesPlan "ENG-2025-001" none none (some "VEN-1000") none (some 1000) none 50
       = .ok { whereClauses := ["c.engagement_id = @engagement_id",
                                "c.vendor_id = @vendor_id", "c.amount >= @min_amount"],
               parameters := [⟨"@engagement_id", PValue.str "ENG-2025-001"⟩,
                              ⟨"@vendor_id", PValue.str "VEN-1000"⟩,
                              ⟨"@min_amount", PValue.num 1000⟩],
               limit := some 50 })
    ∧ ({ whereClauses := ["c.engagement_id = @engagement_id",
                          "c.vendor_id = @vendor_id", "c.amount >= @min_amount"],
         parameters := [⟨"@engagement_id", PValue.str "ENG-2025-001"⟩,
                        ⟨"@vendor_id", PValue.str "VEN-1000"⟩,
                        ⟨"@min_amount", PValue.num 1000⟩],
         limit := some 50 } : StoreQuery).whereClauses
        = ["c.engagement_id = @engagement_id", "c.vendor_id = @vendor_id",
           "c.amount >= @min_amount"]
    ∧ ({ whereClauses := ["c.engagement_id = @engagement_id",
                          "c.vendor_id = @vendor_id", "c.amount >= @min_amount"],
         parameters := [⟨"@engagement_id", PValue.str "ENG-2025-001"⟩,
                        ⟨"@vendor_id", PValue.str "VEN-1000"⟩,
                        ⟨"@min_amount", PValue.num 1000⟩],
         limit := some 50 } : StoreQuery).parameters.length = 3 := by
  have hq : queryInvoicesPlan "ENG-2025-001" none none (some "VEN-1000") none
      (some 1000) none 50
      = .ok { whereClauses := ["c.engagement_id = @engagement_id",
                               "c.vendor_id = @vendor_id", "c.amount >= @min_amount"],
              parameters := [⟨"@engagement_id", PValue.str "ENG-2025-001"⟩,
                             ⟨"@vendor_id", PValue.str "VEN-1000"⟩,
                             ⟨"@min_amount", PValue.num 1000⟩],
              limit := some 50 } := by decide
  exact ⟨hq, (invoice_filter_clause_order hq).2.1.trans (by decide), by decide⟩

/-- C3: with `use_server_vectorizer=True`, a capability-detection failure
makes the engine call the embedding provider exactly once with the single
query string and use that vector for this call, while a successful
server-side construction never invokes the provider; in both cases the
engine's persistent state is unchanged (there is no stored preference to
mutate). -/
theorem hybrid_search_embed_fallback (st : EngineState)
    (embedFn : List String → List (List ℚ)) (q : String)
    (eid : Option String) (top : Int) :
    (searchBuild st false embedFn q eid top true).embedCalls = [[q]]
    ∧ (searchBuild st false embedFn q eid top true).request.vectorQueries
        = [VectorQueryShape.rawVector ((embedFn [q]).headD []) top "content_vector"]
    ∧ (searchBuild st false embedFn q eid top true).finalState = st
    ∧ (searchBuild st true embedFn q eid top true).embedCalls = []
    ∧ (searchBuild st true embedFn q eid top true).request.vectorQueries
        = [VectorQueryShape.vectorizableText q top "content_vector" "my-vectorizer"]
    ∧ (searchBuild st true embedFn q eid top true).finalState = st :=
  ⟨rfl, rfl, rfl, rfl, rfl, rfl⟩

/-- C4: every MCP tool catches any store-layer error and returns its
no-result shape — `{}` for point lookups, `[]` for scans — so an error is
indistinguishable by return value from a genuine zero-match result. -/
theorem boundary_errors_become_empty (err : PyError) :
    get_invoice_tool (.error err) = []
    ∧ get_vendor_tool (.error err) = []
    ∧ get_payment_tool (.error err) = []
    ∧ get_payments_for_invoice_tool (.error err) = []
    ∧ query_invoices_tool (.error err) = []
    ∧ query_payments_tool (.error err) = []
    ∧ get_invoice_tool (.ok none) = get_invoice_tool (.error err)
    ∧ query_invoices_tool (.ok []) = query_invoices_tool (.error err)
    ∧ get_payments_for_invoice_tool (.ok []) = get_payments_for_invoice_tool (.error err) :=
  ⟨rfl, rfl, rfl, rfl, rfl, rfl, rfl, rfl, rfl⟩

/-- C6 counterexample: the claim says every filtered scan carries a result
bound, but `get_payments_for_invoice` assembles a query with no
`OFFSET`/`LIMIT` tail at all. -/
theorem payments_for_invoice_unbounded :
    (getPaymentsForInvoicePlan "ENG-2025-001" "INV-ANCHOR-001").limit = none := by
  decide

/-- C6 (amended): `query_invoices` always attaches the caller-supplied
limit verbatim (`OFFSET 0 LIMIT int(limit)`), but the multi-record scan
`get_payments_for_invoice` applies no result-size bound, so not every
scan of this layer is bounded. -/
theorem limit_application_amended :
    (∀ (e : String) (dfI dtI vI sI : Option String) (mn mx : Option ℚ)
       (lim : Int) (q : StoreQuery),
       queryInvoicesPlan e dfI dtI vI sI mn mx lim = .ok q → q.limit = some lim)
    ∧ (∀ e i : String, (getPaymentsForInvoicePlan e i).limit = none) := by
  constructor
  · intro e dfI dtI vI sI mn mx lim q h
    exact (queryInvoicesPlan_ok h).2.2
  · intro e i
    rfl

/-- C6 witness: a concrete invoice query carries `limit = 50` verbatim,
while the payments-for-invoice scan carries none. -/
theorem limit_application_amended_witness :
    (queryInvoicesPlan "E1" none none none none none none 50
       = .ok { whereClauses := ["c.engagement_id = @engagement_id"],
               parameters := [⟨"@engagement_id", PValue.str "E1"⟩],
               limit := some 50 })
    ∧ ({ whereClauses := ["c.engagement_id = @engagement_id"],
         parameters := [⟨"@engagement_id", PValue.str "E1"⟩],
         limit := some 50 } : StoreQuery).limit = some 50
    ∧ (getPaymentsForInvoicePlan "E1" "INV-1").limit = none := by
  have hq : queryInvoicesPlan "E1" none none none none none none 50
      = .ok { whereClauses := ["c.engagement_id = @engagement_id"],
              parameters := [⟨"@engagement_id", PValue.str "E1"⟩],
              limit := some 50 } := by decide
  exact ⟨hq, limit_application_amended.1 "E1" none none none none none none 50 _ hq,
    limit_application_amended.2 "E1" "INV-1"⟩

/-- C7 counterexample: the claim says every full timestamp comes back with
a `Z` (UTC) suffix, but a `+05:00` offset passes through unchanged — the
output contains no `Z` at all and is not converted to UTC. -/
theorem timestamp_offset_not_converted :
    normalizeStartIso (some "2025-07-01T12:34:56+05:00")
      = some "2025-07-01T12:34:56+05:00"
    ∧ pyContainsChar "2025-07-01T12:34:56+05:00" 'Z' = false := by
  decide

/-- C7 (amended): for every non-empty input containing `T`, both
normalizers return the input with each literal occurrence of `+00:00`
replaced by `Z` and otherwise unchanged; in particular an input with no
`+00:00` occurrence (any other offset, or none) is returned exactly as
supplied, without conversion to UTC. -/
theorem timestamp_normalization_amended {s : String}
    (hne : s ≠ "") (hT : pyContainsChar s 'T' = true) :
    normalizeStartIso (some s) = some (pyReplaceStr s "+00:00" "Z")
    ∧ normalizeEndExclusiveIso (some s) = .ok (some (pyReplaceStr s "+00:00" "Z"))
    ∧ (hasSubstrStr s "+00:00" = false → pyReplaceStr s "+00:00" "Z" = s) := by
  refine ⟨?_, ?_, ?_⟩
  · simp [normalizeStartIso, hne, hT]
  · simp [normalizeEndExclusiveIso, hne, hT]
  · intro hno
    unfold pyReplaceStr
    rw [pyReplace_id "Z".data hno]

/-- C7 witness: a `+00:00` timestamp becomes the same instant with `Z`
substituted, and a `+02:00` timestamp is returned unchanged. -/
theorem timestamp_normalization_amended_witness :
    ("2025-07-01T08:30:00+00:00" ≠ ""
      ∧ pyContainsChar "2025-07-01T08:30:00+00:00" 'T' = true)
    ∧ normalizeStartIso (some "2025-07-01T08:30:00+00:00")
        = some "2025-07-01T08:30:00Z"
    ∧ normalizeEndExclusiveIso (some "2025-07-01T08:30:00+00:00")
        = .ok (some "2025-07-01T08:30:00Z")
    ∧ normalizeStartIso (some "2025-07-01T08:30:00+02:00")
        = some "2025-07-01T08:30:00+02:00" := by
  have h1 := @timestamp_normalization_amended "2025-07-01T08:30:00+00:00"
    (by decide) (by decide)
  have h2 := @timestamp_normalization_amended "2025-07-01T08:30:00+02:00"
    (by decide) (by decide)
  exact ⟨⟨by decide, by decide⟩, h1.1.trans (by decide), h1.2.1.trans (by decide),
    h2.1.trans (congrArg some (h2.2.2 (by decide)))⟩

/-- C8: the invoice point lookup requests at most one record (`TOP 1`),
returns `None` when zero records match the composite key, and otherwise
returns the first matching record in the container's native ordering. -/
theorem point_lookup_first_match (container : List Record) (e i : String) :
    (invoicePointQuery e i).topN = some 1
    ∧ (container.filter (fun r => matchesAll r (invoicePointQuery e i).eqFilters) = []
        → get_invoice container e i = none)
    ∧ (∀ r0 rest,
        container.filter (fun r => matchesAll r (invoicePointQuery e i).eqFilters)
          = r0 :: rest
        → get_invoice container e i = some r0)
    ∧ (execPointQuery container (invoicePointQuery e i)).length ≤ 1 := by
  refine ⟨rfl, ?_, ?_, ?_⟩
  · intro h
    show ((container.filter
        (fun r => matchesAll r (invoicePointQuery e i).eqFilters)).take 1).head? = none
    rw [h]
    rfl
  · intro r0 rest h
    show ((container.filter
        (fun r => matchesAll r (invoicePointQuery e i).eqFilters)).take 1).head? = some r0
    rw [h]
    rfl
  · show ((container.filter
        (fun r => matchesAll r (invoicePointQuery e i).eqFilters)).take 1).length ≤ 1
    rw [List.length_take]
    exact min_le_left _ _

/-- C8 witness: with two records sharing the composite key the lookup
returns the first in native order, and with no matching record it returns
`None`. -/
theorem point_lookup_first_match_witness :
    (sampleContainer.filter
        (fun r => matchesAll r (invoicePointQuery "E" "I").eqFilters)
       = sampleInvoiceA :: [sampleInvoiceB]
     ∧ get_invoice sampleContainer "E" "I" = some sampleInvoiceA)
    ∧ (sampleContainer.filter
        (fun r => matchesAll r (invoicePointQuery "E" "NOPE").eqFilters) = []
     ∧ get_invoice sampleContainer "E" "NOPE" = none) :=
  ⟨⟨by decide, (point_lookup_first_match sampleContainer "E" "I").2.2.1
      sampleInvoiceA [sampleInvoiceB] (by decide)⟩,
   ⟨by decide, (point_lookup_first_match sampleContainer "E" "NOPE").2.1 (by decide)⟩⟩

/-- C9: under asyncio's cooperative scheduling, `_ensure_client` runs
atomically (it has no suspension point), so for any number of concurrent
first-time operations exactly one credential acquisition and one client
construction execute, and every caller observes that single client. -/
theorem single_flight_initialization (n : Nat) (hn : 0 < n) :
    (runEnsureAll n initialStoreState).1.credentialInits = 1
    ∧ (runEnsureAll n initialStoreState).1.clientInits = 1
    ∧ (runEnsureAll n initialStoreState).2 = List.replicate n 0 := by
  cases n with
  | zero => exact absurd hn (by decide)
  | succ m =>
    have he : ensureClient initialStoreState = (⟨1, 1, some 0, some 0⟩, 0) := rfl
    have hrest := @runEnsureAll_initialized 0 m ⟨1, 1, some 0, some 0⟩ rfl
    have hall : runEnsureAll (m + 1) initialStoreState
        = (⟨1, 1, some 0, some 0⟩, 0 :: List.replicate m 0) := by
      unfold runEnsureAll
      simp only [he, hrest]
    rw [hall]
    exact ⟨rfl, rfl, by rw [List.replicate_succ]⟩

/-- C9 witness: three concurrent first-time callers trigger exactly one
initialization and all observe client 0. -/
theorem single_flight_initialization_witness :
    0 < 3
    ∧ (runEnsureAll 3 initialStoreState).1.credentialInits = 1
    ∧ (runEnsureAll 3 initialStoreState).1.clientInits = 1
    ∧ (runEnsureAll 3 initialStoreState).2 = List.replicate 3 0 :=
  ⟨by decide, single_flight_initialization 3 (by decide)⟩

/-- C10: presence tests differ by criterion type — `min_amount` and
`max_amount` equal to 0 still emit their `>=`/`<=` clauses (tested against
`None`), while empty strings for the date, vendor and status criteria emit
no clause (tested by truthiness). -/
theorem presence_tests_zero_vs_empty (e : String) (lim : Int) :
    queryInvoicesPlan e (some "") (some "") (some "") (some "") (some 0) (some 0) lim
      = .ok { whereClauses := ["c.engagement_id = @engagement_id",
                               "c.amount >= @min_amount", "c.amount <= @max_amount"],
              parameters := [⟨"@engagement_id", PValue.str e⟩,
                             ⟨"@min_amount", PValue.num 0⟩,
                             ⟨"@max_amount", PValue.num 0⟩],
              limit := some lim } := rfl
